import Mathlib

/-!
Shallow embedding of the reviewer-lottery action (`src/lottery.ts`).

JavaScript values that may be `undefined` are modelled as `Option _`;
`Math.floor(Math.random() * len)` is modelled by an arbitrary index
function `rand : Nat → Nat`, reduced modulo the current candidate count
(and fixed to `0` when the count is zero, as in JS where
`Math.random() * 0 = 0`).  The unguarded `while` loop of `pickRandom`
is modelled with explicit fuel: a `none` result means the loop was
still running after `fuel` iterations.
-/

namespace Lottery

/-- One reviewer group of the configuration (`config.groups` entries as
destructured in `selectReviewers`): raw username entries (possibly with a
`:contactHandle` suffix), the `reviewers` count and the optional
`internal_reviewers` count.  JS numbers that may be absent are `Option Nat`. -/
structure Group where
  usernames : List String
  reviewers : Option Nat
  internal_reviewers : Option Nat
deriving DecidableEq, Repr

/-- The `Pull` interface of `lottery.ts` (plus the `head.ref` field present on
the fetched objects, used by `getPR` to match the branch).  `user` is nullable,
so the author login is an `Option`; `draft` is optional. -/
structure Pull where
  userLogin : Option String
  number : Nat
  draft : Option Bool
  title : String
  url : String
  headRef : String
deriving DecidableEq, Repr

/-- JS truthiness of a possibly-undefined number: `undefined` and `0` are
falsy, every other count is truthy. -/
def truthyNum : Option Nat → Bool
  | Option.none => false
  | Option.some k => k != 0

/-- `name.split(':')[0]`: the part of a username entry before the first `:`
(the whole string when it has no `:`). -/
def stripHandle (name : String) : String :=
  String.mk (name.data.takeWhile fun c => c != ':')

/-- `name.split(':')[1]`: the segment between the first `:` and the next one
(or the end); `undefined` when the string has no `:`. -/
def splitSecond (name : String) : Option String :=
  match name.data.dropWhile (fun c => c != ':') with
  | [] => Option.none
  | _ :: rest => Option.some (String.mk (rest.takeWhile fun c => c != ':'))

/-- The candidate pool of a group: `usernames.map(name => name.split(':')[0])`
(line 123 of `lottery.ts`). -/
def poolOf (g : Group) : List String :=
  g.usernames.map stripHandle

/-- `Math.floor(Math.random() * candidates.length)` (line 155 of
`lottery.ts`): an arbitrary draw `rand k`, reduced into `[0, length)` when
the list is non-empty, and exactly `0` on an empty list (in JS,
`Math.random() * 0 = 0`). -/
def pickIndex (rand : Nat → Nat) (k : Nat) (candidates : List String) : Nat :=
  if candidates.length = 0 then 0 else rand k % candidates.length

/-- `if (!picks.includes(pick)) picks.push(pick)` (line 158 of `lottery.ts`). -/
def pushPick (pick : Option String) (picks : List (Option String)) : List (Option String) :=
  if pick ∈ picks then picks else picks ++ [pick]

/-- The `while (picks.length < n)` loop of `pickRandom`
(lines 154-159 of `lottery.ts`), with fuel.  Each iteration draws
`pickIndex`, removes that index by `splice` (`candidates.get? i` is the
spliced-out element, `undefined` when the list is empty), and pushes the
pick unless it is already present.  `none` means the fuel ran out with the
loop still running. -/
def pickRandomLoop (rand : Nat → Nat) (n : Nat) :
    Nat → Nat → List String → List (Option String) → Option (List (Option String))
  | 0, _, _, _ => Option.none
  | fuel + 1, k, candidates, picks =>
    if picks.length < n then
      pickRandomLoop rand n fuel (k + 1)
        (candidates.take (pickIndex rand k candidates) ++
          candidates.drop (pickIndex rand k candidates + 1))
        (pushPick (candidates.get? (pickIndex rand k candidates)) picks)
    else
      Option.some picks

/-- `Lottery.pickRandom(items, n, ignore)` (lines 149-162 of `lottery.ts`):
filter `items` down to the candidates not in `ignore` (the ignore list built
by `selectReviewers` may contain `undefined` entries, hence `Option String`),
then run the sampling loop starting from empty `picks`. -/
def pickRandom (rand : Nat → Nat) (fuel : Nat) (items : List String) (n : Nat)
    (ignore : List (Option String)) : Option (List (Option String)) :=
  pickRandomLoop rand n fuel 0
    (items.filter fun item => decide (Option.some item ∉ ignore)) []

/-- The resolved draw count of one group (lines 126-129 of `lottery.ts`):
`usernames.includes(author) && internalReviewers ? internalReviewers : reviewers`. -/
def reviewersToRequest (g : Group) (author : String) : Option Nat :=
  if decide (author ∈ poolOf g) && truthyNum g.internal_reviewers then
    g.internal_reviewers
  else
    g.reviewers

/-- The `for` loop of `selectReviewers` (lines 118-140 of `lottery.ts`):
for each group, resolve the draw count; when it is truthy, call `pickRandom`
on the stripped pool with `ignore = selected.concat(author)` and append the
picks to `selected`.  Each group at position `idx` uses its own index stream
`rand idx`; a `pickRandom` that runs out of fuel makes the whole run `none`
(the JS loop would not have returned). -/
def selectGo (rand : Nat → Nat → Nat) (fuel : Nat) (author : String) :
    Nat → List Group → List (Option String) → Option (List (Option String))
  | _, [], selected => Option.some selected
  | idx, g :: gs, selected =>
    if truthyNum (reviewersToRequest g author) then
      match pickRandom (rand idx) fuel (poolOf g) ((reviewersToRequest g author).getD 0)
          (selected ++ [Option.some author]) with
      | Option.none => Option.none
      | Option.some picks => selectGo rand fuel author (idx + 1) gs (selected ++ picks)
    else
      selectGo rand fuel author (idx + 1) gs selected

/-- `Lottery.selectReviewers` (lines 113-147 of `lottery.ts`) for a known
author: run the group loop starting from an empty `selected` list. -/
def selectReviewers (rand : Nat → Nat → Nat) (fuel : Nat) (author : String)
    (groups : List Group) : Option (List (Option String)) :=
  selectGo rand fuel author 0 groups []

/-- The `selectReviewers` group loop with the per-group `pickRandom` call
abstracted as a step `pick` that may throw (the body of the `try` on lines
117-140 together with the `catch` on lines 141-144 of `lottery.ts`): a thrown
error is caught, logged, and the function falls through to `return selected`,
so the accumulated list at the moment of the throw is returned and no later
group is processed. -/
def selectGoE {ε : Type} (pick : Group → List (Option String) → Except ε (List (Option String)))
    (author : String) : List Group → List (Option String) → List (Option String)
  | [], selected => selected
  | g :: gs, selected =>
    if truthyNum (reviewersToRequest g author) then
      match pick g (selected ++ [Option.some author]) with
      | Except.error _ => selected
      | Except.ok picks => selectGoE pick author gs (selected ++ picks)
    else
      selectGoE pick author gs selected

/-- The memoization field `this.pr` of the `Lottery` class (initially
`undefined`). -/
structure LotteryState where
  pr : Option Pull
deriving DecidableEq, Repr

/-- `Lottery.getPR` (lines 187-208 of `lottery.ts`): if `this.pr` is truthy it
is returned with no fetch; otherwise the open pull requests `prs` are fetched
(counted by the third component) and the first one whose `head.ref` equals
`ref` is memoized and returned.  When none matches, the thrown error is caught
and `undefined` is returned. -/
def getPR (prs : List Pull) (ref : String) (s : LotteryState) :
    Option Pull × LotteryState × Nat :=
  match s.pr with
  | Option.some p => (Option.some p, s, 0)
  | Option.none =>
    let found := prs.find? fun p => p.headRef == ref
    (found, ⟨found⟩, 1)

/-- JS truthiness of the optional `draft` flag (`undefined` and `false` are
falsy). -/
def truthyDraft : Option Bool → Bool
  | Option.none => false
  | Option.some b => b

/-- `!!pr && !pr.draft` (line 64 of `lottery.ts`): the PR exists and its
draft flag is falsy. -/
def isReadyBool (pr : Option Pull) : Bool :=
  pr.isSome && !(truthyDraft (pr.bind Pull.draft))

/-- `Lottery.isReadyToReview` (lines 61-70 of `lottery.ts`): fetch the PR
through the memoizing `getPR` and test readiness; returns the boolean, the
updated memo state, and the number of fetches performed. -/
def isReadyToReview (prs : List Pull) (ref : String) (s : LotteryState) :
    Bool × LotteryState × Nat :=
  match getPR prs ref s with
  | (pr, s', n) => (isReadyBool pr, s', n)

/-- `Lottery.getPRAuthor` (lines 164-175 of `lottery.ts`) applied to an
already-fetched PR: `pr && pr.user ? pr.user.login : ''`. -/
def authorOf : Option Pull → String
  | Option.none => ""
  | Option.some p => p.userLogin.getD ""

/-- `Lottery.run` (lines 46-59 of `lottery.ts`) for a given `getPR` outcome:
when the PR is ready, select reviewers and perform `setReviewers` and
`alertOnSlack` only when the list is non-empty.  The result counts the
reviewer-request calls and the chat notifications (`none` when the selection
loop diverges). -/
def runModel (prRes : Option Pull) (rand : Nat → Nat → Nat) (fuel : Nat)
    (groups : List Group) : Option (Nat × Nat) :=
  if isReadyBool prRes then
    match selectReviewers rand fuel (authorOf prRes) groups with
    | Option.none => Option.none
    | Option.some reviewers =>
      Option.some (if reviewers.length > 0 then (1, 1) else (0, 0))
  else
    Option.some (0, 0)

/-- The sequence of writes `usernameToSlackMap[username] = slackEmail`
performed by `alertOnSlack` (lines 86-92 of `lottery.ts`), in iteration
order: one `(username, handle?)` pair per configured entry. -/
def mapWrites (groups : List Group) : List (String × Option String) :=
  groups.flatMap fun g => g.usernames.map fun user => (stripHandle user, splitSecond user)

/-- Reading `usernameToSlackMap[username]` after all writes: the value of the
last write to that key, and `undefined` when the key was never written (JS
conflates the two on read). -/
def lookupMap (writes : List (String × Option String)) (k : String) : Option String :=
  match writes.reverse.find? (fun p => p.1 == k) with
  | Option.none => Option.none
  | Option.some p => p.2

/-- How one reviewer is rendered in the Slack text (line 97 of `lottery.ts`):
the template literal interpolates `usernameToSlackMap[username]`, printing
the string `undefined` when the value is `undefined`. -/
def slackFragment (groups : List Group) (username : String) : String :=
  "@" ++ (match lookupMap (mapWrites groups) username with
          | Option.none => "undefined"
          | Option.some handle => handle)

/-- An entry carries a contact handle exactly when it contains a `:`
(`split(':')[1]` is defined). -/
def hasHandle (entry : String) : Bool :=
  (splitSecond entry).isSome

/-! ### Helper lemmas about the sampling loop -/

theorem mem_pushPick {x pick : Option String} {picks : List (Option String)}
    (h : x ∈ pushPick pick picks) : x ∈ picks ∨ x = pick := by
  unfold pushPick at h
  by_cases hp : pick ∈ picks
  · rw [if_pos hp] at h
    exact Or.inl h
  · rw [if_neg hp] at h
    rcases List.mem_append.1 h with h1 | h1
    · exact Or.inl h1
    · exact Or.inr (List.mem_singleton.1 h1)

/-- Every element of a successful sampling-loop result is an initial pick,
the JS `undefined`, or one of the candidates. -/
theorem pickRandomLoop_mem (rand : Nat → Nat) (n : Nat) :
    ∀ (fuel k : Nat) (candidates : List String) (picks out : List (Option String)),
      pickRandomLoop rand n fuel k candidates picks = Option.some out →
      ∀ x ∈ out, x ∈ picks ∨ x = Option.none ∨ ∃ c ∈ candidates, x = Option.some c := by
  intro fuel
  induction fuel with
  | zero =>
    intro k candidates picks out h
    exact absurd h (by simp [pickRandomLoop])
  | succ f ih =>
    intro k candidates picks out h x hx
    rw [pickRandomLoop] at h
    by_cases hlt : picks.length < n
    · rw [if_pos hlt] at h
      rcases ih (k + 1) _ _ out h x hx with hmem | hnone | ⟨c, hc, hxc⟩
      · rcases mem_pushPick hmem with h1 | h1
        · exact Or.inl h1
        · cases hg : candidates.get? (pickIndex rand k candidates) with
          | none => exact Or.inr (Or.inl (h1.trans hg))
          | some c =>
            refine Or.inr (Or.inr ⟨c, List.get?_mem hg, ?_⟩)
            exact h1.trans hg
      · exact Or.inr (Or.inl hnone)
      · refine Or.inr (Or.inr ⟨c, ?_, hxc⟩)
        rcases List.mem_append.1 hc with h1 | h1
        · exact List.take_subset _ _ h1
        · exact List.drop_subset _ _ h1
    · rw [if_neg hlt] at h
      exact Or.inl (Option.some.inj h ▸ hx)

/-- Every element of a successful `pickRandom` result is `undefined` or an
item of `items` that is not in `ignore`. -/
theorem pickRandom_mem (rand : Nat → Nat) (fuel : Nat) (items : List String)
    (n : Nat) (ignore : List (Option String)) (out : List (Option String))
    (h : pickRandom rand fuel items n ignore = Option.some out) :
    ∀ x ∈ out, x = Option.none ∨
      ∃ c ∈ items, Option.some c ∉ ignore ∧ x = Option.some c := by
  intro x hx
  rcases pickRandomLoop_mem rand n fuel 0 _ [] out h x hx with hmem | hnone | ⟨c, hc, hxc⟩
  · exact absurd hmem (List.not_mem_nil x)
  · exact Or.inl hnone
  · rcases List.mem_filter.1 hc with ⟨hcitems, hcdec⟩
    exact Or.inr ⟨c, hcitems, of_decide_eq_true hcdec, hxc⟩

/-- Loop invariant for the group loop: the author never enters `selected`. -/
theorem selectGo_author_not_mem (rand : Nat → Nat → Nat) (fuel : Nat) (author : String) :
    ∀ (groups : List Group) (idx : Nat) (selected out : List (Option String)),
      selectGo rand fuel author idx groups selected = Option.some out →
      Option.some author ∉ selected → Option.some author ∉ out := by
  intro groups
  induction groups with
  | nil =>
    intro idx selected out h hsel
    rw [selectGo] at h
    exact Option.some.inj h ▸ hsel
  | cons g gs ih =>
    intro idx selected out h hsel
    rw [selectGo] at h
    by_cases htr : truthyNum (reviewersToRequest g author) = true
    · rw [if_pos htr] at h
      cases hp : pickRandom (rand idx) fuel (poolOf g)
          ((reviewersToRequest g author).getD 0) (selected ++ [Option.some author]) with
      | none => rw [hp] at h; exact absurd h (by simp)
      | some picks =>
        rw [hp] at h
        refine ih (idx + 1) _ out h ?_
        intro hmem
        rcases List.mem_append.1 hmem with h1 | h1
        · exact hsel h1
        · rcases pickRandom_mem _ _ _ _ _ _ hp _ h1 with hnone | ⟨c, _, hcnotig, hxc⟩
          · exact Option.noConfusion hnone
          · exact hcnotig (Option.some.inj hxc ▸
              List.mem_append.2 (Or.inr (List.mem_singleton.2 rfl)))
    · rw [if_neg htr] at h
      exact ih (idx + 1) _ out h hsel

/-- The sampling loop can never leave the state `candidates = []`,
`picks = [undefined]` when two picks are demanded: the spliced-out element is
always `undefined`, which is already in `picks`, so no fuel bound suffices. -/
theorem pickRandomLoop_stuck (rand : Nat → Nat) :
    ∀ fuel k : Nat, pickRandomLoop rand 2 fuel k [] [Option.none] = Option.none := by
  intro fuel
  induction fuel with
  | zero => intro k; rfl
  | succ f ih =>
    intro k
    rw [pickRandomLoop]
    exact ih (k + 1)

/-- Running the loop for two picks on a single eligible candidate `c` returns
`[c, undefined]`: `c` is drawn first, then the exhausted pool splices out
`undefined`. -/
theorem pickRandomLoop_two_of_one (rand : Nat → Nat) (k : Nat) (c : String) :
    pickRandomLoop rand 2 3 k [c] [] = Option.some [Option.some c, Option.none] := by
  have hi : pickIndex rand k [c] = 0 := by simp [pickIndex, Nat.mod_one]
  rw [pickRandomLoop, hi]
  rfl

/-- `pickRandom` with `n = 2` and a single eligible candidate `c` returns
`[c, undefined]` within 3 loop iterations. -/
theorem pickRandom_two_of_one (rand : Nat → Nat) (items : List String) (n : Nat)
    (ignore : List (Option String)) (c : String)
    (hfil : items.filter (fun item => decide (Option.some item ∉ ignore)) = [c])
    (hn : n = 2) :
    pickRandom rand 3 items n ignore = Option.some [Option.some c, Option.none] := by
  subst hn
  rw [pickRandom, hfil]
  exact pickRandomLoop_two_of_one rand 0 c

/-!  ### Claim theorems -/

/-- C1: the claim that every `pickRandom(items, n, ignore)` call returns
exactly `min(n, |items \ ignore|)` elements, all drawn from `items`, fails on
the code: with `items = ["a"]`, `n = 2`, `ignore = []` the unguarded loop
splices `undefined` out of the exhausted pool and returns
`["a", undefined]` — two elements instead of `min 2 1 = 1`, one of them not
drawn from `items`. -/
theorem pickRandom_overshoot_bug (rand : Nat → Nat) :
    pickRandom rand 3 ["a"] 2 [] = Option.some [Option.some "a", Option.none] ∧
    ([Option.some "a", Option.none] : List (Option String)).length ≠
      min 2 (["a"] : List String).length ∧
    Option.none ∉ (["a"] : List String).map Option.some := by
  exact ⟨pickRandom_two_of_one rand ["a"] 2 [] "a" (by decide) rfl, by decide, by decide⟩

/-- C2: the claim that the sampling loop terminates once no eligible
candidate remains fails on the code: with `items = []`, `n = 2`,
`ignore = []` the loop pushes one `undefined` and then spins forever —
for every fuel bound the loop is still running (`none` result), for every
possible random sequence. -/
theorem pickRandom_nonterminating (rand : Nat → Nat) (fuel : Nat) :
    pickRandom rand fuel [] 2 [] = Option.none := by
  cases fuel with
  | zero => rfl
  | succ f =>
    rw [pickRandom, pickRandomLoop]
    exact pickRandomLoop_stuck rand f 1

/-- C3: Scenario B, `groups = [{usernames:["a","b"], reviewers:1,
internal_reviewers:2}]`, author `"a"`.  The draw count does resolve to 2 and
the pool after excluding the author is `{"b"}`, but the returned list is
`["b", undefined]`, not the claimed `["b"]`: the unguarded loop appends an
`undefined` entry once the pool is exhausted. -/
theorem selectReviewers_scenarioB_bug (rand : Nat → Nat → Nat) :
    reviewersToRequest ⟨["a", "b"], Option.some 1, Option.some 2⟩ "a" = Option.some 2 ∧
    selectReviewers rand 3 "a" [⟨["a", "b"], Option.some 1, Option.some 2⟩] =
      Option.some [Option.some "b", Option.none] ∧
    ([Option.some "b", Option.none] : List (Option String)) ≠ [Option.some "b"] := by
  refine ⟨by decide, ?_, by decide⟩
  have hreq : reviewersToRequest ⟨["a", "b"], Option.some 1, Option.some 2⟩ "a"
      = Option.some 2 := by decide
  have h1 := pickRandom_two_of_one (rand 0)
    (poolOf ⟨["a", "b"], Option.some 1, Option.some 2⟩) ((Option.some 2).getD 0)
    ([] ++ [Option.some "a"]) "b" (by decide) rfl
  rw [selectReviewers, selectGo, hreq, h1]
  rfl

/-- C6: the claim that a returned list never contains duplicate entries
fails on the code: with two single-member groups that both request two
reviewers, each group's exhausted pool contributes an `undefined` entry, so
the result `["a", undefined, "b", undefined]` repeats `undefined`. -/
theorem selectReviewers_duplicate_entries_bug (rand : Nat → Nat → Nat) :
    selectReviewers rand 3 "z"
        [⟨["a"], Option.some 2, Option.none⟩, ⟨["b"], Option.some 2, Option.none⟩] =
      Option.some [Option.some "a", Option.none, Option.some "b", Option.none] ∧
    ¬ ([Option.some "a", Option.none, Option.some "b", Option.none] :
        List (Option String)).Nodup := by
  refine ⟨?_, by decide⟩
  have hreq1 : reviewersToRequest ⟨["a"], Option.some 2, Option.none⟩ "z"
      = Option.some 2 := by decide
  have hreq2 : reviewersToRequest ⟨["b"], Option.some 2, Option.none⟩ "z"
      = Option.some 2 := by decide
  have h1 := pickRandom_two_of_one (rand 0) (poolOf ⟨["a"], Option.some 2, Option.none⟩)
    ((Option.some 2).getD 0) ([] ++ [Option.some "z"]) "a" (by decide) rfl
  have h2 := pickRandom_two_of_one (rand 1) (poolOf ⟨["b"], Option.some 2, Option.none⟩)
    ((Option.some 2).getD 0)
    (([] ++ [Option.some "a", Option.none]) ++ [Option.some "z"]) "b" (by decide) rfl
  rw [selectReviewers, selectGo, hreq1, h1]
  show selectGo rand 3 "z" 1 [⟨["b"], Option.some 2, Option.none⟩]
      ([] ++ [Option.some "a", Option.none]) =
    Option.some [Option.some "a", Option.none, Option.some "b", Option.none]
  rw [selectGo, hreq2, h2]
  rfl

/-- C4 counterexample: the claim resolves the draw count to
`internalReviewers` whenever the author is in the pool and the group
*defines* `internalReviewers`; but for a group defining
`internal_reviewers = 0` with the author in the pool, the code's truthiness
test (`&& internalReviewers`) falls through to `reviewers` instead. -/
theorem reviewersToRequest_defined_zero_counterexample :
    ("a" ∈ poolOf ⟨["a", "b"], Option.some 1, Option.some 0⟩ ∧
      (⟨["a", "b"], Option.some 1, Option.some 0⟩ : Group).internal_reviewers ≠
        Option.none) ∧
    reviewersToRequest ⟨["a", "b"], Option.some 1, Option.some 0⟩ "a" ≠
      (⟨["a", "b"], Option.some 1, Option.some 0⟩ : Group).internal_reviewers := by
  decide

/-- C4 (amended): the resolved draw count is `internalReviewers` exactly when
the author is in the stripped candidate pool AND the group defines a *truthy*
(non-zero) `internalReviewers`, and is `reviewers` otherwise; and whenever the
resolved draw count is falsy (`undefined` or `0`) the group is skipped — it
contributes no picks and raises no error. -/
theorem reviewersToRequest_resolution (g : Group) (author : String) :
    reviewersToRequest g author =
      (if author ∈ poolOf g ∧ truthyNum g.internal_reviewers = true then
        g.internal_reviewers
      else
        g.reviewers) ∧
    (truthyNum (reviewersToRequest g author) = false →
      ∀ (rand : Nat → Nat → Nat) (fuel idx : Nat) (gs : List Group)
        (selected : List (Option String)),
        selectGo rand fuel author idx (g :: gs) selected =
          selectGo rand fuel author (idx + 1) gs selected) := by
  constructor
  · by_cases hmem : author ∈ poolOf g
    · by_cases htr : truthyNum g.internal_reviewers = true
      · simp [reviewersToRequest, hmem, htr]
      · simp [reviewersToRequest, hmem, htr]
    · simp [reviewersToRequest, hmem]
  · intro hf rand fuel idx gs selected
    rw [selectGo, if_neg]
    rw [hf]
    exact Bool.false_ne_true

/-- Witness for C4's amended theorem at a group whose draw count resolves to
the falsy `undefined`: the resolution equation holds and the group is
skipped. -/
theorem reviewersToRequest_resolution_witness :
    reviewersToRequest ⟨["a"], Option.none, Option.none⟩ "z" =
      (if "z" ∈ poolOf ⟨["a"], Option.none, Option.none⟩ ∧
          truthyNum (⟨["a"], Option.none, Option.none⟩ : Group).internal_reviewers = true then
        (⟨["a"], Option.none, Option.none⟩ : Group).internal_reviewers
      else
        (⟨["a"], Option.none, Option.none⟩ : Group).reviewers) ∧
    selectGo (fun _ _ => 0) 3 "z" 0 [⟨["a"], Option.none, Option.none⟩] [] =
      selectGo (fun _ _ => 0) 3 "z" 1 [] [] :=
  ⟨(reviewersToRequest_resolution ⟨["a"], Option.none, Option.none⟩ "z").1,
    (reviewersToRequest_resolution ⟨["a"], Option.none, Option.none⟩ "z").2
      (by decide) (fun _ _ => 0) 3 0 [] []⟩

/-- C5: the author's username never appears in the list returned by
`selectReviewers`: every ignore list handed to `pickRandom` contains the
author, the candidate filter removes them, and only candidates (or
`undefined`) are ever appended to `selected`. -/
theorem selectReviewers_author_excluded (rand : Nat → Nat → Nat) (fuel : Nat)
    (author : String) (groups : List Group) (out : List (Option String))
    (h : selectReviewers rand fuel author groups = Option.some out) :
    Option.some author ∉ out :=
  selectGo_author_not_mem rand fuel author groups 0 [] out h (List.not_mem_nil _)

/-- Witness for C5 on a concrete run: author `"a"`, one group `{a, b}` with
one reviewer requested. -/
theorem selectReviewers_author_excluded_witness :
    Option.some "a" ∉ ([Option.some "b"] : List (Option String)) :=
  selectReviewers_author_excluded (fun _ _ => 0) 3 "a"
    [⟨["a", "b"], Option.some 1, Option.none⟩] [Option.some "b"] (by decide)

/-- C7: if the step computing one group's picks throws, the `catch` swallows
the error and `selectReviewers` returns exactly the reviewers accumulated
before the failure: no further group is processed (the result does not depend
on `gs`) and no error propagates (the function returns an ordinary list). -/
theorem selectGoE_partial_on_error {ε : Type}
    (pick : Group → List (Option String) → Except ε (List (Option String)))
    (author : String) (g : Group) (gs : List Group)
    (selected : List (Option String)) (e : ε)
    (htr : truthyNum (reviewersToRequest g author) = true)
    (herr : pick g (selected ++ [Option.some author]) = Except.error e) :
    selectGoE pick author (g :: gs) selected = selected := by
  rw [selectGoE, if_pos htr, herr]

/-- Witness for C7: a step that always throws makes the run return the
already-accumulated list untouched, with a second group left unprocessed. -/
theorem selectGoE_partial_on_error_witness :
    selectGoE (fun _ _ => Except.error ()) "z"
      [⟨["a"], Option.some 1, Option.none⟩, ⟨["b"], Option.some 1, Option.none⟩]
      [Option.some "q"] = [Option.some "q"] :=
  selectGoE_partial_on_error (fun _ _ => Except.error ()) "z"
    ⟨["a"], Option.some 1, Option.none⟩ [⟨["b"], Option.some 1, Option.none⟩]
    [Option.some "q"] () (by decide) rfl

/-- C8: a run whose fetched PR is a draft fails the readiness check and
performs zero reviewer-request calls and zero notifications; and a run whose
selection comes back empty likewise makes neither call. -/
theorem run_skips_draft_and_empty :
    (∀ (p : Pull) (rand : Nat → Nat → Nat) (fuel : Nat) (groups : List Group),
      p.draft = Option.some true →
      isReadyBool (Option.some p) = false ∧
        runModel (Option.some p) rand fuel groups = Option.some (0, 0)) ∧
    (∀ (prRes : Option Pull) (rand : Nat → Nat → Nat) (fuel : Nat) (groups : List Group),
      selectReviewers rand fuel (authorOf prRes) groups = Option.some [] →
      runModel prRes rand fuel groups = Option.some (0, 0)) := by
  constructor
  · intro p rand fuel groups hdraft
    have hready : isReadyBool (Option.some p) = false := by
      simp [isReadyBool, hdraft, truthyDraft]
    exact ⟨hready, by simp [runModel, hready]⟩
  · intro prRes rand fuel groups hsel
    by_cases hready : isReadyBool prRes = true
    · simp [runModel, hready, hsel]
    · simp [runModel, hready]

/-- Witness for C8: a concrete draft PR is skipped, and a ready PR with an
empty group list yields an empty selection and no calls. -/
theorem run_skips_draft_and_empty_witness :
    (isReadyBool (Option.some ⟨Option.some "a", 1, Option.some true, "t", "u", "r"⟩) = false ∧
      runModel (Option.some ⟨Option.some "a", 1, Option.some true, "t", "u", "r"⟩)
        (fun _ _ => 0) 3 [] = Option.some (0, 0)) ∧
    runModel (Option.some ⟨Option.some "a", 1, Option.some false, "t", "u", "r"⟩)
      (fun _ _ => 0) 3 [] = Option.some (0, 0) :=
  ⟨run_skips_draft_and_empty.1 ⟨Option.some "a", 1, Option.some true, "t", "u", "r"⟩
      (fun _ _ => 0) 3 [] rfl,
    run_skips_draft_and_empty.2
      (Option.some ⟨Option.some "a", 1, Option.some false, "t", "u", "r"⟩)
      (fun _ _ => 0) 3 [] (by decide)⟩

/-- C9: once the PR is fetched and memoized in `this.pr`, two successive
`isReadyToReview` calls on the same instance return the same boolean and
neither performs a fetch (the memoized PR is reused, so in particular the
second call fetches nothing). -/
theorem isReadyToReview_memoized (prs : List Pull) (ref : String)
    (s : LotteryState) (p : Pull) (hcache : s.pr = Option.some p) :
    (isReadyToReview prs ref s).1 =
      (isReadyToReview prs ref (isReadyToReview prs ref s).2.1).1 ∧
    (isReadyToReview prs ref s).2.2 = 0 ∧
    (isReadyToReview prs ref (isReadyToReview prs ref s).2.1).2.2 = 0 := by
  simp [isReadyToReview, getPR, hcache]

/-- Witness for C9 on a concrete cached state. -/
theorem isReadyToReview_memoized_witness :
    (isReadyToReview [] "r" ⟨Option.some ⟨Option.some "a", 1, Option.none, "t", "u", "r"⟩⟩).1 =
      (isReadyToReview [] "r"
        (isReadyToReview [] "r"
          ⟨Option.some ⟨Option.some "a", 1, Option.none, "t", "u", "r"⟩⟩).2.1).1 ∧
    (isReadyToReview [] "r" ⟨Option.some ⟨Option.some "a", 1, Option.none, "t", "u", "r"⟩⟩).2.2 = 0 ∧
    (isReadyToReview [] "r"
      (isReadyToReview [] "r"
        ⟨Option.some ⟨Option.some "a", 1, Option.none, "t", "u", "r"⟩⟩).2.1).2.2 = 0 :=
  isReadyToReview_memoized [] "r" ⟨Option.some ⟨Option.some "a", 1, Option.none, "t", "u", "r"⟩⟩
    ⟨Option.some "a", 1, Option.none, "t", "u", "r"⟩ rfl

/-- C10 counterexample: the claim says every reviewer whose username appears
in the configuration without a `:` suffix maps to `undefined`; but when the
same username also appears elsewhere *with* a handle, the later write wins:
here `"bob"` is a suffix-free entry yet maps to `"x"` and renders as `"@x"`. -/
theorem slackMap_last_write_counterexample :
    hasHandle "bob" = false ∧
    "bob" ∈ ([⟨["bob"], Option.none, Option.none⟩,
        ⟨["bob:x"], Option.none, Option.none⟩] : List Group).flatMap Group.usernames ∧
    lookupMap (mapWrites [⟨["bob"], Option.none, Option.none⟩,
        ⟨["bob:x"], Option.none, Option.none⟩]) "bob" ≠ Option.none ∧
    slackFragment [⟨["bob"], Option.none, Option.none⟩,
        ⟨["bob:x"], Option.none, Option.none⟩] "bob" = "@x" := by
  decide

/-- C10 (amended): for a reviewer whose username occurs in the configuration
*only* in suffix-free form (every configured entry for that username lacks a
`:contactHandle`), the table maps the username to `undefined` and the
notification text renders the reviewer as the literal fragment
`"@undefined"`. -/
theorem slackMap_renders_undefined (groups : List Group) (username : String)
    (h : ∀ entry ∈ groups.flatMap Group.usernames,
      stripHandle entry = username → splitSecond entry = Option.none) :
    lookupMap (mapWrites groups) username = Option.none ∧
    slackFragment groups username = "@undefined" := by
  have hlook : lookupMap (mapWrites groups) username = Option.none := by
    rw [lookupMap]
    cases hfind : (mapWrites groups).reverse.find? (fun p => p.1 == username) with
    | none => rfl
    | some p =>
      have hpk : p.1 = username := by
        have := List.find?_some hfind
        exact eq_of_beq this
      have hpmem : p ∈ mapWrites groups :=
        List.mem_reverse.1 (List.mem_of_find?_eq_some hfind)
      rcases List.mem_flatMap.1 hpmem with ⟨g, hg, hpg⟩
      rcases List.mem_map.1 hpg with ⟨entry, hentry, hpe⟩
      have hmem : entry ∈ groups.flatMap Group.usernames :=
        List.mem_flatMap.2 ⟨g, hg, hentry⟩
      have hstrip : stripHandle entry = username := by
        rw [← hpk, ← hpe]
      have := h entry hmem hstrip
      rw [← hpe] at hpk ⊢
      exact this
  refine ⟨hlook, ?_⟩
  rw [slackFragment, hlook]
  rfl

/-- Witness for C10's amended theorem: a configuration whose only entry for
`"bob"` is suffix-free renders `"@undefined"`. -/
theorem slackMap_renders_undefined_witness :
    lookupMap (mapWrites [⟨["bob"], Option.none, Option.none⟩]) "bob" = Option.none ∧
    slackFragment [⟨["bob"], Option.none, Option.none⟩] "bob" = "@undefined" :=
  slackMap_renders_undefined [⟨["bob"], Option.none, Option.none⟩] "bob" (by decide)

end Lottery

